import Mathlib

/-!
# Verification of the kit worker core

A shallow embedding of the worker's runtime, plan compiler, execution
context and configuration code, with theorems settling the frozen claims.

Modelling conventions:
* JavaScript promises that settle with a value or an error are modelled as
  `Except String α`; a promise that never settles is the `hung` outcome.
* `undefined` is modelled as `Option.none`; JS truthiness on strings is
  `jsTruthy` (empty string and `undefined` are falsy).
* Compiled JS functions (the output of `compileFunction`) are opaque and
  represented by a `Nat` token; `compileFunction` itself is an oracle
  parameter `cf : String → Except String Nat` whose `error` carries the
  thrown message.
* Dataclip payloads and runtime states are represented by `String`
  stand-ins where their structure is irrelevant to the claims.
* Wall-clock time is abstracted: a timer of duration `t` fires before a
  computation that settles after `d` ticks exactly when `t ≤ d`
  (single-threaded event loop; a promise settles at most once).
-/

namespace Kit

/-- JS truthiness for an optional string: `undefined` and `""` are falsy. -/
def jsTruthy : Option String → Bool
  | none => false
  | some s => s ≠ ""

/-! ## Runtime (`execute`, `prepareJob`, `defaultExecute`, timeout) -/

/-- `TIMEOUT = 5 * 60 * 1000` (5 minutes), from the runtime module. -/
def TIMEOUT : Nat := 5 * 60 * 1000

/-- `ERR_TIMEOUT = 'timeout'`. -/
def ERR_TIMEOUT : String := "timeout"

/-- `ERR_RUNTIME_EXCEPTION = 'runtime exception'`. -/
def ERR_RUNTIME_EXCEPTION : String := "runtime exception"

/-- An operation: a (possibly failing) function from state to state.
The promise returned by a JS operation is modelled as `Except`. -/
def Operation (σ : Type) : Type := σ → Except String σ

/-- The expression argument of the runtime: either source text or a
pre-compiled operation list. -/
inductive Expression (σ : Type) where
  | str (source : String)
  | ops (l : List (Operation σ))

/-- The runtime options bundle (the fields the claims touch). -/
structure Options where
  timeout : Option Nat := none
  immutableState : Bool := false
  forceSandbox : Bool := false
  strict : Bool := false

/-- A loaded job module: the ordered operation list (the module's default
export). The optional `execute` override is irrelevant to the claims and
omitted. -/
structure JobModule (σ : Type) where
  operations : List (Operation σ)

/-- `prepareJob`: source text goes to the module loader (an oracle
`loadModule`); an operation list is rejected when `opts.forceSandbox`
is set, with the exact error of the source, and accepted otherwise. -/
def prepareJob {σ : Type} (loadModule : String → JobModule σ)
    (expression : Expression σ) (opts : Options) :
    Except String (JobModule σ) :=
  match expression with
  | .str s => .ok (loadModule s)
  | .ops l =>
      if opts.forceSandbox then
        .error "Invalid arguments: jobs must be strings"
      else
        .ok ⟨l⟩

/-- The default reducer: `operations.reduce((acc, op) => acc.then(op),
Promise.resolve(state))`. `.then` on a rejected promise skips the
operation and keeps the rejection, which is exactly `Except.bind`. -/
def defaultExecute {σ : Type} (operations : List (Operation σ)) :
    Operation σ :=
  fun state =>
    operations.foldl (fun acc operation => acc.bind operation)
      (Except.ok state)

/-- Specification-side sequential application:
`op_n(await op_(n-1)(... await op_1(s)))`, a rejection short-circuiting
the rest of the chain. Used to state the claim about `defaultExecute`. -/
def seqApply {σ : Type} : List (Operation σ) → σ → Except String σ
  | [], s => .ok s
  | op :: rest, s =>
      match op s with
      | .ok s' => seqApply rest s'
      | .error e => .error e

/-- The armed timer duration: `opts.timeout || TIMEOUT` (JS `||`, so a
present-but-zero timeout also falls back to the default). -/
def timeoutMs (opts : Options) : Nat :=
  match opts.timeout with
  | some t => if t = 0 then TIMEOUT else t
  | none => TIMEOUT

/-- A runtime state object: a JSON-like record (assoc list) with string
values standing in for arbitrary JSON. -/
abbrev JsObj : Type := List (String × String)

/-- Assoc-list lookup (JS property read). -/
def objGet (o : JsObj) (k : String) : Option String :=
  match o with
  | [] => none
  | (k', v) :: rest => if k' = k then some v else objGet rest k

/-- `assignKeys(source, target, keys)`: copy each listed key that the
source owns onto the target, in key order. -/
def assignKeys (source target : JsObj) (keys : List String) : JsObj :=
  keys.foldl
    (fun t k =>
      match objGet source k with
      | some v => t ++ [(k, v)]
      | none => t)
    target

/-- `prepareFinalState`: falsy state is returned as is; otherwise, under
`strict`, the state is projected to `data`, `error`, `references`; the
serialisation round-trip (`stringify` then `JSON.parse`) is the identity
on our JSON-like states (they hold no functions). -/
def prepareFinalState (opts : Options) (state : Option JsObj) :
    Option JsObj :=
  match state with
  | none => none
  | some s =>
      if opts.strict then
        some (assignKeys s [] ["data", "error", "references"])
      else
        some s

/-- How a run settles (or fails to). -/
inductive Outcome where
  | resolved (value : Option JsObj)
  | rejected (e : String)
  | hung
  deriving DecidableEq

/-- The runtime's promise executor, with time abstracted.  The composed
operation chain is summarised by the tick `chainDuration` at which it
settles and its settlement `chainResult`.

Control flow of the source: `prepareJob` is awaited before the
`try`/`catch` and before the timer is armed, so its rejection escapes the
`async` executor and the returned promise never settles (`hung`).
Otherwise one timer of `timeoutMs opts` is armed; if it fires first the
run rejects with `ERR_TIMEOUT`; if the chain settles first, the timer is
cleared and the run resolves with the prepared final state, or rejects
with `ERR_RUNTIME_EXCEPTION` if the chain rejected. -/
def executeOutcome (loadModule : String → JobModule (Option JsObj))
    (expression : Expression (Option JsObj)) (opts : Options)
    (chainDuration : Nat) (chainResult : Except String (Option JsObj)) :
    Outcome :=
  match prepareJob loadModule expression opts with
  | .error _ => .hung
  | .ok _ =>
      if chainDuration < timeoutMs opts then
        match chainResult with
        | .ok s => .resolved (prepareFinalState opts s)
        | .error _ => .rejected ERR_RUNTIME_EXCEPTION
      else
        .rejected ERR_TIMEOUT

/-! ## Plan compiler (`compile`, `compileEdges`, `findUpstream`) -/

/-- An edge condition: either still source text or a compiled predicate
(opaque token produced by the `compileFunction` oracle). -/
inductive Cond where
  | src (s : String)
  | fn (k : Nat)
  deriving DecidableEq

/-- A `JobEdge` object: an optional `condition` plus an optional
`disabled` flag (standing for the other retained fields). -/
structure EdgeObj where
  condition : Option Cond := none
  disabled : Option Bool := none
  deriving DecidableEq

/-- A value of an entry of a `next` map: boolean, condition source
string, or an edge object. -/
inductive EdgeVal where
  | bool (b : Bool)
  | str (condition : String)
  | obj (e : EdgeObj)
  deriving DecidableEq

/-- The `next` field of a job: a single successor id, or a map from
successor id to edge value (assoc list in JS key order). -/
inductive Edges where
  | single (id : String)
  | map (m : List (String × EdgeVal))
  deriving DecidableEq

/-- An input job of an `ExecutionPlan`. -/
structure Job where
  id : Option String := none
  expression : String
  state : Option String := none
  configuration : Option String := none
  adaptor : Option String := none
  next : Option Edges := none
  deriving DecidableEq

/-- An input execution plan. -/
structure Plan where
  jobs : List Job
  start : Option String := none
  deriving DecidableEq

/-- A compiled job node. -/
structure CompiledJobNode where
  id : String
  expression : String
  state : Option String := none
  configuration : Option String := none
  next : Option (List (String × EdgeVal)) := none
  previous : Option String := none
  deriving DecidableEq

/-- A compiled execution plan: `start` plus nodes keyed by job id
(assoc list in insertion order). -/
structure CompiledPlan where
  start : Option String
  jobs : List (String × CompiledJobNode)
  deriving DecidableEq

/-- The `compileFunction` oracle: compiling condition source either
yields an opaque function token or throws a message. -/
abbrev CompileFn : Type := String → Except String Nat

/-- One step of the edge scan of `compileEdges`: given the accumulated
`(result, errs)` pair, process one `(edgeId, edge)` entry.  A boolean is
kept verbatim; a string is compiled into `\x7b condition \x7d`; an object is
shallow-copied, a string condition being compiled; a compile failure is
caught and recorded as
`Failed to compile edge condition <from>-><edgeId> (<message>)`. -/
def compileEdgeStep (cf : CompileFn) (from_ : String)
    (acc : List (String × EdgeVal) × List String)
    (entry : String × EdgeVal) :
    List (String × EdgeVal) × List String :=
  let edgeId := entry.1
  let failMsg := fun (m : String) =>
    "Failed to compile edge condition " ++ from_ ++ "->" ++ edgeId ++
      " (" ++ m ++ ")"
  match entry.2 with
  | .bool b => (acc.1 ++ [(edgeId, .bool b)], acc.2)
  | .str c =>
      match cf c with
      | .ok k => (acc.1 ++ [(edgeId, .obj ⟨some (.fn k), none⟩)], acc.2)
      | .error m => (acc.1, acc.2 ++ [failMsg m])
  | .obj e =>
      match e.condition with
      | some (.src c) =>
          match cf c with
          | .ok k =>
              (acc.1 ++ [(edgeId, .obj { e with condition := some (.fn k) })],
                acc.2)
          | .error m => (acc.1, acc.2 ++ [failMsg m])
      | _ => (acc.1 ++ [(edgeId, .obj e)], acc.2)

/-- `compileEdges(from, edges, context)`: a string shorthand becomes
`\x7b [edges]: true \x7d`; otherwise every entry of the map is scanned (a
failure on one entry never aborts the scan), and if any errors accrued
the whole list of them is thrown. -/
def compileEdges (cf : CompileFn) (from_ : String) (edges : Edges) :
    Except (List String) (List (String × EdgeVal)) :=
  match edges with
  | .single s => .ok [(s, .bool true)]
  | .map m =>
      let r := m.foldl (compileEdgeStep cf from_) ([], [])
      if r.2 = [] then .ok r.1 else .error r.2

/-- First-match assoc lookup on a `next` map (JS property read). -/
def lookupEdge (m : List (String × EdgeVal)) (id : String) :
    Option EdgeVal :=
  match m with
  | [] => none
  | (k, v) :: rest => if k = id then some v else lookupEdge rest id

/-- JS truthiness of an edge value: `false` and the empty condition
string are the falsy ones; objects are always truthy. -/
def edgeTruthy : EdgeVal → Bool
  | .bool b => b
  | .str c => c ≠ ""
  | .obj _ => true

/-- `findUpstream(plan, id)`, verbatim from the source: scanning the
jobs, when `job.next` is the string `id` the function returns `job.next`
(which is `id` itself, not `job.id`); when `job.next` is a map holding a
truthy entry for `id` it returns `job.id`. -/
def findUpstream (jobs : List Job) (id : String) : Option String :=
  match jobs with
  | [] => none
  | job :: rest =>
      match job.next with
      | none => findUpstream rest id
      | some (.single s) =>
          if s = id then some s else findUpstream rest id
      | some (.map m) =>
          match lookupEdge m id with
          | some e => if edgeTruthy e then job.id else findUpstream rest id
          | none => findUpstream rest id

/-- The id-assignment pass of the compiler (`// ensure ids before we
start`): every job with a falsy id is given `job-<n>`, the counter `n`
pre-incremented from 0; this pass MUTATES the caller's plan, which the
embedding renders by returning the updated job list. -/
def ensureIdsGo (autoJobId : Nat) : List Job → List Job
  | [] => []
  | job :: rest =>
      if jsTruthy job.id then
        job :: ensureIdsGo autoJobId rest
      else
        { job with id := some ("job-" ++ toString (autoJobId + 1)) } ::
          ensureIdsGo (autoJobId + 1) rest

/-- The id-assignment pass, counter starting at 0. -/
def ensureIds (jobs : List Job) : List Job := ensureIdsGo 0 jobs

/-- What a JS `throw` from the edge-compilation thunk can carry: the
array of collected edge errors, or anything else. -/
inductive JsThrow where
  | arr (msgs : List String)
  | other (e : String)
  deriving DecidableEq

/-- `trapErrors(fn)`: run the thunk; an array thrown from it is appended
to the collected errors, any other throw propagates immediately. -/
def trapErrors (errs : List String) (r : Except JsThrow Unit) :
    Except String (List String) :=
  match r with
  | .ok _ => .ok errs
  | .error (.arr msgs) => .ok (errs ++ msgs)
  | .error (.other e) => .error e

/-- One iteration of the compiler's main job loop: default `start` to
the first job's id if still falsy, build the compiled node (copying
`expression`, optional `state` and `configuration`), compile the edges
under `trapErrors`, and set `previous` via `findUpstream` over the
(id-ensured) plan. -/
def compileJobStep (cf : CompileFn) (jobs : List Job)
    (acc : Option String × List (String × CompiledJobNode) × List String)
    (job : Job) :
    Option String × List (String × CompiledJobNode) × List String :=
  let jobId := job.id.getD ""
  let start := if jsTruthy acc.1 then acc.1 else some jobId
  let compiled :=
    match job.next with
    | none => (none, acc.2.2)
    | some edges =>
        match compileEdges cf jobId edges with
        | .ok r => (some r, acc.2.2)
        | .error msgs => (none, acc.2.2 ++ msgs)
  let newJob : CompiledJobNode :=
    { id := jobId
      expression := job.expression
      state := if jsTruthy job.state then job.state else none
      configuration :=
        if jsTruthy job.configuration then job.configuration else none
      next := compiled.1
      previous := findUpstream jobs jobId }
  (start, acc.2.1 ++ [(jobId, newJob)], compiled.2)

/-- The compiler on an id-ensured job list: fold the main loop, then, if
any errors were collected, throw one error whose message is the
collected messages joined by blank lines. -/
def compileJobs (cf : CompileFn) (jobs : List Job)
    (start : Option String) : Except String CompiledPlan :=
  let r := jobs.foldl (compileJobStep cf jobs) (start, [], [])
  if r.2.2 = [] then
    .ok ⟨r.1, r.2.1⟩
  else
    .error (String.intercalate "\n\n" r.2.2)

/-- The full default export: the id-ensuring pass mutates the input
plan, then the mutated plan is compiled.  The pair returned is (the
caller's plan as it stands after the call, the compilation result). -/
def compileMut (cf : CompileFn) (plan : Plan) :
    Plan × Except String CompiledPlan :=
  let jobs := ensureIds plan.jobs
  (⟨jobs, plan.start⟩, compileJobs cf jobs plan.start)

/-- The compilation result alone. -/
def compile (cf : CompileFn) (plan : Plan) : Except String CompiledPlan :=
  (compileMut cf plan).2

/-- The dynamically-typed `jobs` field of whatever is passed to the
compiler: the input format (an array of jobs) or the output format (an
id-keyed object of compiled nodes). -/
inductive JobsField where
  | arr (l : List Job)
  | obj (l : List (String × CompiledJobNode))
  deriving DecidableEq

/-- A dynamically-typed plan argument. -/
structure DynPlan where
  jobs : JobsField
  start : Option String
  deriving DecidableEq

/-- The compiler as called on a dynamically-typed argument: iterating
`for (const job of plan.jobs)` over a plain object throws a `TypeError`
(a plain JS object is not iterable); an array proceeds as `compile`. -/
def compileDyn (cf : CompileFn) (plan : DynPlan) :
    Except String CompiledPlan :=
  match plan.jobs with
  | .obj _ => .error "TypeError: plan.jobs is not iterable"
  | .arr l => compile cf ⟨l, plan.start⟩

/-- A compiled plan, seen again as a (dynamically-typed) compiler
argument: its `jobs` is the id-keyed object. -/
def CompiledPlan.toDyn (c : CompiledPlan) : DynPlan :=
  ⟨.obj c.jobs, c.start⟩

/-! ## Execution context (`onJobStart`, `onJobComplete`,
`onWorkflowComplete`) -/

/-- The per-attempt mutable state.  In the source only `plan` is set at
creation: `activeRun`, `activeJob`, `dataclips` and `result` all start
out `undefined`. -/
structure AttemptState where
  activeRun : Option String := none
  activeJob : Option String := none
  dataclips : Option (List (String × String)) := none
  result : Option String := none
  deriving DecidableEq

/-- The `RUN_START` payload. -/
structure RunStartMsg where
  run_id : Option String
  job_id : Option String
  deriving DecidableEq

/-- The `RUN_COMPLETE` payload (`output_dataclip` carries the
stringified event state, a `String` stand-in here). -/
structure RunCompleteMsg where
  run_id : Option String
  job_id : Option String
  output_dataclip_id : String
  output_dataclip : String
  deriving DecidableEq

/-- The `ATTEMPT_COMPLETE` payload. -/
structure AttemptCompleteMsg where
  final_dataclip_id : Option String
  deriving DecidableEq

/-- JS property assignment on an assoc-list object: overwrite in place,
else append. -/
def objSet (o : List (String × String)) (k v : String) :
    List (String × String) :=
  match o with
  | [] => [(k, v)]
  | (k', v') :: rest =>
      if k' = k then (k, v) :: rest else (k', v') :: objSet rest k v

/-- `onJobStart`: a fresh run id (the `uuid` argument models
`crypto.randomUUID()`) is written to `state.activeRun`, the event (the
started job's id) to `state.activeJob`; the pushed `RUN_START` carries
`state.activeJob` in BOTH its `run_id` and `job_id` fields. -/
def onJobStart (uuid : String) (st : AttemptState) (event : String) :
    AttemptState × RunStartMsg :=
  let st' := { st with activeRun := some uuid, activeJob := some event }
  (st', ⟨st'.activeJob, st'.activeJob⟩)

/-- `onJobComplete`: a fresh dataclip id (`dataclipId` models
`crypto.randomUUID()`); push `RUN_COMPLETE` (still carrying the active
run and job), then initialise `dataclips` if needed, store the event
state under the new id, point `result` at it, and clear the active
run/job. -/
def onJobComplete (dataclipId : String) (st : AttemptState)
    (evState : String) : AttemptState × RunCompleteMsg :=
  let msg : RunCompleteMsg :=
    ⟨st.activeRun, st.activeJob, dataclipId, evState⟩
  let st' :=
    { st with
      dataclips := some (objSet (st.dataclips.getD []) dataclipId evState)
      result := some dataclipId
      activeRun := none
      activeJob := none }
  (st', msg)

/-- `onWorkflowComplete`: read `state.dataclips[state.result!]` (a
`TypeError` if `dataclips` is still `undefined`, in which case nothing
is pushed), then push `ATTEMPT_COMPLETE` carrying `state.result` as
`final_dataclip_id`; the second component is the value the attempt
resolves with on the `ok` ack. -/
def onWorkflowComplete (st : AttemptState) :
    Except String (AttemptCompleteMsg × Option String) :=
  match st.dataclips with
  | none => .error "TypeError: state.dataclips is undefined"
  | some dc =>
      let result :=
        match st.result with
        | some r => objGet dc r
        | none => none
      .ok (⟨st.result⟩, result)

/-- A runner lifecycle event relevant to the attempt state: `job-start`
(with the fresh uuid the handler will draw) or `job-complete` (with the
fresh dataclip id).  The `workflow-start` and `log` handlers read but
never write `dataclips`/`result` and are omitted. -/
inductive JobEv where
  | start (jobId uuid : String)
  | complete (dataclipId evState : String)
  deriving DecidableEq

/-- A message pushed on the channel during the job phase. -/
inductive Msg where
  | runStart (m : RunStartMsg)
  | runComplete (m : RunCompleteMsg)
  deriving DecidableEq

/-- Dispatch one event to its handler, collecting the pushed message. -/
def stepEv (acc : AttemptState × List Msg) (ev : JobEv) :
    AttemptState × List Msg :=
  match ev with
  | .start jobId uuid =>
      let r := onJobStart uuid acc.1 jobId
      (r.1, acc.2 ++ [.runStart r.2])
  | .complete dataclipId evState =>
      let r := onJobComplete dataclipId acc.1 evState
      (r.1, acc.2 ++ [.runComplete r.2])

/-- The attempt state as created in `execute`: only `plan` set. -/
def initialAttemptState : AttemptState := {}

/-- Run a whole sequence of job-phase events. -/
def runTrace (events : List JobEv) : AttemptState × List Msg :=
  events.foldl stepEv (initialAttemptState, [])

/-- The `output_dataclip_id` of the last `RUN_COMPLETE` in a message
list. -/
def lastRunCompleteId (msgs : List Msg) : Option String :=
  (msgs.filterMap fun m =>
    match m with
    | .runComplete rc => some rc.output_dataclip_id
    | _ => none).getLast?

/-! ## Worker configuration (`setArg`, env defaults) -/

/-- A JS number: an integer or `NaN` (`parseInt` never yields
fractions). -/
inductive JsNum where
  | num (n : Int)
  | nan
  deriving DecidableEq

/-- Decimal value of a digit run. -/
def digitsToNat (ds : List Char) : Nat :=
  ds.foldl (fun a c => a * 10 + (c.toNat - 48)) 0

/-- `parseInt(s, 10)`: skip leading whitespace, optional sign, longest
leading digit run; `NaN` when no digits. -/
def parseIntJs (s : String) : JsNum :=
  let cs := s.toList.dropWhile Char.isWhitespace
  let signed :=
    match cs with
    | '-' :: r => ((-1 : Int), r)
    | '+' :: r => ((1 : Int), r)
    | r => ((1 : Int), r)
  let ds := signed.2.takeWhile Char.isDigit
  if ds.isEmpty then .nan else .num (signed.1 * (digitsToNat ds : Int))

/-- `split` on a one-character separator, over the character list
(JS `String.prototype.split` semantics: the empty string yields one
empty group, a trailing separator a trailing empty group). -/
def splitCharList (sep : Char) : List Char → List (List Char)
  | [] => [[]]
  | c :: rest =>
      let r := splitCharList sep rest
      if c = sep then [] :: r
      else
        match r with
        | [] => [[c]]
        | g :: gs => (c :: g) :: gs

/-- `s.split(sep)` for a one-character separator. -/
def jsSplit (s : String) (sep : Char) : List String :=
  (splitCharList sep s.toList).map (fun cs => String.mk cs)

/-- The CLI values as parsed by yargs (all optional). -/
structure ParsedArgs where
  port : Option JsNum := none
  lightning : Option String := none
  repoDir : Option String := none
  secret : Option String := none
  lightningPublicKey : Option String := none
  log : Option String := none
  backoff : Option String := none
  capacity : Option JsNum := none
  statePropsToRemove : Option (List String) := none
  runMemory : Option JsNum := none
  maxRunDurationSeconds : Option JsNum := none
  deriving DecidableEq

/-- The `WORKER_*` environment (absent variables are `none`). -/
structure Env where
  WORKER_BACKOFF : Option String := none
  WORKER_CAPACITY : Option String := none
  WORKER_LIGHTNING_PUBLIC_KEY : Option String := none
  WORKER_LIGHTNING_SERVICE_URL : Option String := none
  WORKER_LOG_LEVEL : Option String := none
  WORKER_MAX_RUN_DURATION_SECONDS : Option String := none
  WORKER_MAX_RUN_MEMORY_MB : Option String := none
  WORKER_PORT : Option String := none
  WORKER_REPO_DIR : Option String := none
  WORKER_SECRET : Option String := none
  WORKER_STATE_PROPS_TO_REMOVE : Option String := none
  deriving DecidableEq

/-- `setArg(cliValue, envValue, defaultValue)`: first defined wins. -/
def setArg {α : Type} (cliValue envValue defaultValue : Option α) :
    Option α :=
  match cliValue with
  | some v => some v
  | none =>
      match envValue with
      | some v => some v
      | none => defaultValue

/-- `ENV_VAR ? parseInt(ENV_VAR) : undefined` (truthiness guard, then
parse). -/
def envNum (o : Option String) : Option JsNum :=
  match o with
  | some s => if s = "" then none else some (parseIntJs s)
  | none => none

/-- `ENV_VAR ? ENV_VAR.split(',') : undefined`. -/
def envSplit (o : Option String) : Option (List String) :=
  match o with
  | some s => if s = "" then none else some (jsSplit s ',')
  | none => none

/-- The resolved configuration. -/
structure Args where
  port : Option JsNum
  lightning : Option String
  repoDir : Option String
  secret : Option String
  lightningPublicKey : Option String
  log : Option String
  backoff : Option String
  capacity : Option JsNum
  statePropsToRemove : Option (List String)
  runMemory : Option JsNum
  maxRunDurationSeconds : Option JsNum
  deriving DecidableEq

/-- The `args` object built at startup: each field via `setArg` with the
CLI value, the (guarded/parsed) environment value, and the built-in
default. -/
def mkArgs (p : ParsedArgs) (e : Env) : Args :=
  { port := setArg p.port (envNum e.WORKER_PORT) (some (.num 2222))
    lightning := setArg p.lightning e.WORKER_LIGHTNING_SERVICE_URL
      (some "ws://localhost:4000/worker")
    repoDir := setArg p.repoDir e.WORKER_REPO_DIR none
    secret := setArg p.secret e.WORKER_SECRET none
    lightningPublicKey := setArg p.lightningPublicKey
      e.WORKER_LIGHTNING_PUBLIC_KEY none
    log := setArg p.log e.WORKER_LOG_LEVEL (some "debug")
    backoff := setArg p.backoff e.WORKER_BACKOFF (some "1/10")
    capacity := setArg p.capacity (envNum e.WORKER_CAPACITY)
      (some (.num 5))
    statePropsToRemove := setArg p.statePropsToRemove
      (envSplit e.WORKER_STATE_PROPS_TO_REMOVE)
      (some ["configuration", "response"])
    runMemory := setArg p.runMemory (envNum e.WORKER_MAX_RUN_MEMORY_MB)
      (some (.num 500))
    maxRunDurationSeconds := setArg p.maxRunDurationSeconds
      (envNum e.WORKER_MAX_RUN_DURATION_SECONDS) (some (.num 300)) }

/-- `n * 1000` on a JS number. -/
def jsMul1000 : JsNum → JsNum
  | .num n => .num (n * 1000)
  | .nan => .nan

/-- `args.backoff.split('/').map(n => parseInt(n, 10) * 1000)`. -/
def backoffParts (s : String) : List JsNum :=
  (jsSplit s '/').map (fun n => jsMul1000 (parseIntJs n))

/-! ## Characterisations used to state the claims -/

/-- The error message one entry of a `next` map contributes under the
`compileFunction` oracle `cf`, if any. -/
def edgeFailMsg (cf : CompileFn) (from_ : String)
    (entry : String × EdgeVal) : Option String :=
  let failMsg := fun (m : String) =>
    "Failed to compile edge condition " ++ from_ ++ "->" ++ entry.1 ++
      " (" ++ m ++ ")"
  match entry.2 with
  | .bool _ => none
  | .str c =>
      match cf c with
      | .ok _ => none
      | .error m => some (failMsg m)
  | .obj e =>
      match e.condition with
      | some (.src c) =>
          match cf c with
          | .ok _ => none
          | .error m => some (failMsg m)
      | _ => none

/-- All error messages an edge set contributes, in scan order. -/
def edgeFailMsgs (cf : CompileFn) (from_ : String) (edges : Edges) :
    List String :=
  match edges with
  | .single _ => []
  | .map m => m.filterMap (edgeFailMsg cf from_)

/-- All error messages one job contributes. -/
def jobFailMsgs (cf : CompileFn) (job : Job) : List String :=
  match job.next with
  | some edges => edgeFailMsgs cf (job.id.getD "") edges
  | none => []

/-- All error messages a (id-ensured) job list accrues, in job order. -/
def planFailMsgs (cf : CompileFn) (jobs : List Job) : List String :=
  jobs.foldl (fun acc j => acc ++ jobFailMsgs cf j) []

/-- An edge value that a previous compiler pass already produced:
booleans, and objects whose condition is no longer source text. -/
def edgeCompiledB : EdgeVal → Bool
  | .bool _ => true
  | .str _ => false
  | .obj e =>
      match e.condition with
      | some (.src _) => false
      | _ => true

/-- First-match assoc lookup on the compiled node map. -/
def lookupNode (m : List (String × CompiledJobNode)) (id : String) :
    Option CompiledJobNode :=
  match m with
  | [] => none
  | (k, v) :: rest => if k = id then some v else lookupNode rest id

/-- `dataclips[result]` is a defined entry of the attempt state. -/
def clipDefined (st : AttemptState) : Bool :=
  match st.dataclips, st.result with
  | some dc, some r => (objGet dc r).isSome
  | _, _ => false

/-- The invariant the job-phase handlers maintain: while no job has
completed, `dataclips` is untouched and no `RUN_COMPLETE` went out; once
`result` points somewhere, the entry is present in `dataclips` and is
exactly the last `RUN_COMPLETE`'s `output_dataclip_id`. -/
def attemptInv (st : AttemptState) (msgs : List Msg) : Prop :=
  match st.result with
  | none => st.dataclips = none ∧ lastRunCompleteId msgs = none
  | some r =>
      ∃ dc, st.dataclips = some dc ∧ (objGet dc r).isSome ∧
        lastRunCompleteId msgs = some r

/-! ## Concrete inputs used by counterexamples and witnesses -/

/-- A trivial module loader (no claim depends on loaded modules). -/
def lmTriv : String → JobModule (Option JsObj) := fun _ => ⟨[]⟩

/-- A `compileFunction` oracle that always succeeds. -/
def cfTriv : CompileFn := fun _ => .ok 0

/-- A `compileFunction` oracle that always throws `nope`. -/
def cfFailAll : CompileFn := fun _ => .error "nope"

/-- Two jobs, the first pointing at the second by the string form of
`next`. -/
def planAB : Plan :=
  { jobs :=
      [ { id := some "a", expression := "x", next := some (.single "b") },
        { id := some "b", expression := "y" } ]
    start := some "a" }

/-- A one-job plan that compiles successfully. -/
def planOne : Plan :=
  { jobs := [{ id := some "a", expression := "x" }], start := some "a" }

/-- What the compiler produces on `planOne`. -/
def compiledOne : CompiledPlan :=
  { start := some "a"
    jobs := [("a", { id := "a", expression := "x" })] }

/-- A plan whose three edge conditions all fail to compile under
`cfFailAll`, spread over two jobs. -/
def planErr : Plan :=
  { jobs :=
      [ { id := some "a", expression := "x"
          next := some (.map [("b", .str "c1"), ("c", .str "c2")]) },
        { id := some "b", expression := "y"
          next := some (.map [("c", .str "c3")]) },
        { id := some "c", expression := "z" } ]
    start := some "a" }

/-! # Theorems -/

/-! ## C1 — `onJobStart` and the `RUN_START` payload -/

/-- C1 counterexample: on a concrete `job-start` event for job `job-1`
with freshly generated run id `uuid-1234`, the pushed `RUN_START`
carries the job id — not the fresh run id — in its `run_id` field, even
though the fresh run id was indeed stored in `state.activeRun`. -/
theorem c1_run_start_run_id_is_job_id :
    (onJobStart "uuid-1234" initialAttemptState "job-1").2.run_id =
      some "job-1" ∧
    (some "job-1" : Option String) ≠ some "uuid-1234" ∧
    (onJobStart "uuid-1234" initialAttemptState "job-1").1.activeRun =
      some "uuid-1234" := by
  refine ⟨rfl, by decide, rfl⟩

/-- C1 (amended): the handler stores the fresh run id in
`state.activeRun` and the started job's id in `state.activeJob`, but the
`RUN_START` it pushes carries `state.activeJob` — the job id — in both
its `run_id` and `job_id` fields. -/
theorem c1_on_job_start (uuid : String) (st : AttemptState)
    (event : String) :
    (onJobStart uuid st event).1.activeRun = some uuid ∧
    (onJobStart uuid st event).1.activeJob = some event ∧
    (onJobStart uuid st event).2.run_id = some event ∧
    (onJobStart uuid st event).2.job_id = some event :=
  ⟨rfl, rfl, rfl, rfl⟩

/-! ## C2 — `previous` under the string form of `next` -/

/-- C2: on the plan `a --(next: the string b)--> b`, the compiled node
for `b` gets `previous = b` — `findUpstream` returns `job.next` (the
downstream id itself) in the string branch instead of `job.id` — though
the claim, the spec and the function's own comment (`find the upstream
job for a given job`) require `previous = a`. -/
theorem c2_previous_bug_eval :
    (compile cfTriv planAB).toOption.bind
        (fun c => (lookupNode c.jobs "b").map CompiledJobNode.previous) =
      some (some "b") ∧
    findUpstream (ensureIds planAB.jobs) "b" = some "b" ∧
    ("b" : String) ≠ "a" := by
  refine ⟨rfl, rfl, by decide⟩

/-! ## C5 — `forceSandbox` with a pre-compiled operation list -/

/-- C5 counterexample: with `forceSandbox` set and a concrete
pre-compiled (empty) operation list, `prepareJob` does reject with
`Invalid arguments: jobs must be strings`, but the rejection happens
inside the `async` promise executor before the `try`/`catch`, so the
promise the runner returns never settles: the run hangs instead of
settling with that rejection. -/
theorem c5_force_sandbox_hangs :
    executeOutcome lmTriv (.ops []) { forceSandbox := true } 0 (.ok none) =
      .hung ∧
    Outcome.hung ≠ .rejected "Invalid arguments: jobs must be strings" := by
  refine ⟨rfl, by decide⟩

/-- C5 (amended): for every options bundle with `forceSandbox` set and
every pre-compiled operation list, `prepareJob` throws exactly
`Invalid arguments: jobs must be strings`, and — the throw escaping the
`async` executor before the `try`/`catch` and before the timer is
armed — the promise returned by the runner never settles. -/
theorem c5_force_sandbox_rejects_unsettled
    (lm : String → JobModule (Option JsObj))
    (l : List (Operation (Option JsObj))) (opts : Options) (d : Nat)
    (r : Except String (Option JsObj)) :
    prepareJob lm (.ops l) { opts with forceSandbox := true } =
      .error "Invalid arguments: jobs must be strings" ∧
    executeOutcome lm (.ops l) { opts with forceSandbox := true } d r =
      .hung := by
  constructor
  · simp [prepareJob]
  · simp [executeOutcome, prepareJob]

/-! ## C8 — the default reducer is strictly sequential -/

/-- `.then` chains starting from a rejection stay rejected: folding the
remaining operations over an already-rejected accumulator is that
rejection. -/
theorem foldl_bind_error {σ : Type} (operations : List (Operation σ))
    (e : String) :
    operations.foldl (fun acc operation => acc.bind operation)
      (Except.error e) = Except.error e := by
  induction operations with
  | nil => rfl
  | cons op rest ih => simpa [Except.bind] using ih

/-- The reducer fold from a resolved accumulator is sequential
application. -/
theorem foldl_bind_ok {σ : Type} (operations : List (Operation σ))
    (s : σ) :
    operations.foldl (fun acc operation => acc.bind operation)
      (Except.ok s) = seqApply operations s := by
  induction operations generalizing s with
  | nil => rfl
  | cons op rest ih =>
      show List.foldl _ ((Except.ok s).bind op) rest = _
      have hb : (Except.ok s).bind op = op s := rfl
      rw [hb]
      cases h : op s with
      | ok s' => rw [ih s']; simp [seqApply, h]
      | error e => rw [foldl_bind_error]; simp [seqApply, h]

/-- Sequential application splits at an append. -/
theorem seqApply_append {σ : Type} (pre post : List (Operation σ))
    (s : σ) :
    seqApply (pre ++ post) s =
      match seqApply pre s with
      | .ok s' => seqApply post s'
      | .error e => .error e := by
  induction pre generalizing s with
  | nil => rfl
  | cons op rest ih =>
      simp only [List.cons_append, seqApply]
      cases op s with
      | ok s' => exact ih s'
      | error e => rfl

/-- C8: the default reducer applies the operations strictly
sequentially — its result is the nested sequential application
`op_n(await op_(n-1)(... await op_1(s)))` — and a rejection from any
operation is the rejection of the whole chain, the remaining operations
being skipped. -/
theorem c8_default_execute_sequential {σ : Type}
    (operations : List (Operation σ)) (s : σ) :
    defaultExecute operations s = seqApply operations s ∧
    (∀ (pre post : List (Operation σ)) (op : Operation σ) (s' : σ)
        (e : String),
      seqApply pre s = .ok s' → op s' = .error e →
      defaultExecute (pre ++ op :: post) s = .error e) := by
  refine ⟨foldl_bind_ok operations s, ?_⟩
  intro pre post op s' e hpre hop
  show (pre ++ op :: post).foldl
      (fun acc operation => acc.bind operation) (Except.ok s) = _
  rw [foldl_bind_ok, seqApply_append, hpre]
  simp [seqApply, hop]

/-- C8 witness: a concrete three-operation chain whose middle operation
rejects; the chain rejects with that error and the final operation is
skipped. -/
theorem c8_default_execute_sequential_witness :
    defaultExecute
        [fun n => Except.ok (n + 1),
         fun _ => (Except.error "boom" : Except String Nat),
         fun n => Except.ok (n * 2)] 0 = Except.error "boom" :=
  (c8_default_execute_sequential
      [fun n => Except.ok (n + 1),
       fun _ => (Except.error "boom" : Except String Nat),
       fun n => Except.ok (n * 2)] 0).2
    [fun n => Except.ok (n + 1)] [fun n => Except.ok (n * 2)]
    (fun _ => Except.error "boom") 1 "boom" rfl rfl

/-! ## C7 — the single run timeout -/

/-- C7 counterexample: with `opts.timeout = 0` the armed timer is the
5-minute default, not 0 ms (`opts.timeout || TIMEOUT` treats 0 as
absent): a chain settling at tick 100 resolves even though a 0 ms timer
would have fired first. -/
theorem c7_zero_timeout_uses_default :
    timeoutMs { timeout := some 0 } = 300000 ∧
    executeOutcome lmTriv (.ops []) { timeout := some 0 } 100 (.ok none) =
      .resolved none ∧
    (300000 : Nat) ≠ 0 := by
  refine ⟨rfl, rfl, by decide⟩

/-- C7 (amended): one timer of `opts.timeout` ms is armed, the default
of 5 minutes = 300000 ms applying when `opts.timeout` is absent or zero
(any falsy value); when it fires before the chain settles the run
rejects with the error `timeout`; when the chain resolves first the
timer is cleared and the run resolves with the prepared final state. -/
theorem c7_timeout_race (lm : String → JobModule (Option JsObj))
    (expression : Expression (Option JsObj)) (opts : Options)
    (jm : JobModule (Option JsObj))
    (hprep : prepareJob lm expression opts = .ok jm) (d : Nat)
    (r : Except String (Option JsObj)) :
    (opts.timeout = none → timeoutMs opts = 300000) ∧
    (opts.timeout = some 0 → timeoutMs opts = 300000) ∧
    (∀ t, opts.timeout = some t → t ≠ 0 → timeoutMs opts = t) ∧
    (timeoutMs opts ≤ d →
      executeOutcome lm expression opts d r = .rejected ERR_TIMEOUT) ∧
    (∀ s, d < timeoutMs opts → r = .ok s →
      executeOutcome lm expression opts d r =
        .resolved (prepareFinalState opts s)) := by
  refine ⟨?_, ?_, ?_, ?_, ?_⟩
  · intro h; simp [timeoutMs, h, TIMEOUT]
  · intro h; simp [timeoutMs, h, TIMEOUT]
  · intro t h ht; simp [timeoutMs, h, ht]
  · intro h
    simp [executeOutcome, hprep, Nat.not_lt.mpr h]
  · intro s hd hr
    simp [executeOutcome, hprep, hd, hr]

/-- C7 witness: with no timeout given, a chain still pending at tick
300000 is abandoned and the run rejects with `timeout`; the same chain
settling at tick 10 resolves. -/
theorem c7_timeout_race_witness :
    executeOutcome lmTriv (.ops []) {} 300000 (.ok none) =
      .rejected ERR_TIMEOUT ∧
    executeOutcome lmTriv (.ops []) {} 10 (.ok (some [("data", "42")])) =
      .resolved (some [("data", "42")]) := by
  constructor
  · exact (c7_timeout_race lmTriv (.ops []) {} ⟨[]⟩ rfl 300000
      (.ok none)).2.2.2.1 (by decide)
  · exact (c7_timeout_race lmTriv (.ops []) {} ⟨[]⟩ rfl 10
      (.ok (some [("data", "42")]))).2.2.2.2 (some [("data", "42")])
      (by decide) rfl

/-! ## C3 — the compiler on its own output -/

/-- The edge scan leaves already-compiled entries untouched: folding
over a map whose entries are booleans or compiled-condition objects just
appends them to the result, collecting no error. -/
theorem foldl_compileEdgeStep_compiled (cf : CompileFn) (from_ : String)
    (m : List (String × EdgeVal))
    (h : ∀ p ∈ m, edgeCompiledB p.2 = true)
    (acc : List (String × EdgeVal) × List String) :
    m.foldl (compileEdgeStep cf from_) acc = (acc.1 ++ m, acc.2) := by
  induction m generalizing acc with
  | nil => simp
  | cons p rest ih =>
      obtain ⟨k, v⟩ := p
      have hv : edgeCompiledB v = true := h (k, v) (by simp)
      have hrest : ∀ q ∈ rest, edgeCompiledB q.2 = true := fun q hq =>
        h q (by simp [hq])
      rw [List.foldl_cons, ih hrest]
      cases v with
      | bool b => simp [compileEdgeStep]
      | str c => simp [edgeCompiledB] at hv
      | obj e =>
          cases he : e.condition with
          | none => simp [compileEdgeStep, he]
          | some cond =>
              cases cond with
              | src c => simp [edgeCompiledB, he] at hv
              | fn fk => simp [compileEdgeStep, he]

/-- C3 counterexample: `planOne` compiles successfully to
`compiledOne`, but running the compiler on that output does not return
it unchanged — it throws, because the output keeps its jobs in an
id-keyed object which the compiler's `for...of` loop cannot iterate. -/
theorem c3_recompile_throws :
    compile cfTriv planOne = .ok compiledOne ∧
    compileDyn cfTriv (CompiledPlan.toDyn compiledOne) =
      .error "TypeError: plan.jobs is not iterable" :=
  ⟨rfl, rfl⟩

/-- C3 (amended): the compiler is not idempotent on its own output — a
second pass over any compiled plan fails with a `TypeError` since the
compiled `jobs` is an id-keyed map, not an array; only the edge scan is
idempotent: recompiling an edge map whose entries were already compiled
returns the map unchanged. -/
theorem c3_second_pass (cf : CompileFn) :
    (∀ c : CompiledPlan,
      compileDyn cf c.toDyn =
        .error "TypeError: plan.jobs is not iterable") ∧
    (∀ (from_ : String) (m : List (String × EdgeVal)),
      (∀ p ∈ m, edgeCompiledB p.2 = true) →
      compileEdges cf from_ (.map m) = .ok m) := by
  constructor
  · intro c; rfl
  · intro from_ m h
    simp [compileEdges, foldl_compileEdgeStep_compiled cf from_ m h]

/-- C3 witness: the edge-idempotence clause applied to a concrete
already-compiled edge map. -/
theorem c3_second_pass_witness :
    compileEdges cfTriv "a"
        (.map [("b", .bool true), ("c", .obj ⟨some (.fn 3), none⟩)]) =
      .ok [("b", .bool true), ("c", .obj ⟨some (.fn 3), none⟩)] :=
  (c3_second_pass cfTriv).2 "a"
    [("b", .bool true), ("c", .obj ⟨some (.fn 3), none⟩)] (by decide)

/-! ## C6 — edge-compilation errors are collected, then joined -/

/-- The error component of the edge scan: exactly the failure messages
of all failing entries, in scan order, appended to whatever was already
collected — one entry's failure never stops the scan. -/
theorem foldl_compileEdgeStep_errs (cf : CompileFn) (from_ : String)
    (m : List (String × EdgeVal))
    (acc : List (String × EdgeVal) × List String) :
    (m.foldl (compileEdgeStep cf from_) acc).2 =
      acc.2 ++ m.filterMap (edgeFailMsg cf from_) := by
  induction m generalizing acc with
  | nil => simp
  | cons p rest ih =>
      obtain ⟨k, v⟩ := p
      rw [List.foldl_cons, ih]
      cases v with
      | bool b => simp [compileEdgeStep, edgeFailMsg, List.filterMap_cons]
      | str c =>
          cases hc : cf c with
          | ok n =>
              simp [compileEdgeStep, edgeFailMsg, hc, List.filterMap_cons]
          | error msg =>
              simp [compileEdgeStep, edgeFailMsg, hc, List.filterMap_cons]
      | obj e =>
          cases he : e.condition with
          | none =>
              simp [compileEdgeStep, edgeFailMsg, he, List.filterMap_cons]
          | some cond =>
              cases cond with
              | src c =>
                  cases hc : cf c with
                  | ok n =>
                      simp [compileEdgeStep, edgeFailMsg, he, hc,
                        List.filterMap_cons]
                  | error msg =>
                      simp [compileEdgeStep, edgeFailMsg, he, hc,
                        List.filterMap_cons]
              | fn fk =>
              simp [compileEdgeStep, edgeFailMsg, he, List.filterMap_cons]

/-- What `compileEdges` throws, seen as a set of messages: empty when it
returns, the full scan's failure messages when it throws. -/
theorem compileEdges_error_set (cf : CompileFn) (from_ : String)
    (edges : Edges) :
    (match compileEdges cf from_ edges with
      | .ok _ => ([] : List String)
      | .error msgs => msgs) = edgeFailMsgs cf from_ edges := by
  cases edges with
  | single s => rfl
  | map m =>
      have he := foldl_compileEdgeStep_errs cf from_ m ([], [])
      simp only [List.nil_append] at he
      unfold compileEdges
      by_cases h : (m.foldl (compileEdgeStep cf from_) ([], [])).2 = []
      · rw [he] at h
        simp [he, h, edgeFailMsgs]
      · rw [he] at h
        simp [he, h, edgeFailMsgs]

/-- A returning edge scan collected no failure message. -/
theorem compileEdges_ok_no_errs (cf : CompileFn) (from_ : String)
    (edges : Edges) (r : List (String × EdgeVal))
    (hc : compileEdges cf from_ edges = .ok r) :
    edgeFailMsgs cf from_ edges = [] := by
  have h := compileEdges_error_set cf from_ edges
  rw [hc] at h
  exact h.symm

/-- A throwing edge scan threw exactly the collected messages. -/
theorem compileEdges_error_errs (cf : CompileFn) (from_ : String)
    (edges : Edges) (msgs : List String)
    (hc : compileEdges cf from_ edges = .error msgs) :
    msgs = edgeFailMsgs cf from_ edges := by
  have h := compileEdges_error_set cf from_ edges
  rw [hc] at h
  exact h

/-- The error component of one step of the compiler's job loop. -/
theorem compileJobStep_errs (cf : CompileFn) (alljobs : List Job)
    (acc : Option String × List (String × CompiledJobNode) × List String)
    (job : Job) :
    (compileJobStep cf alljobs acc job).2.2 =
      acc.2.2 ++ jobFailMsgs cf job := by
  unfold compileJobStep jobFailMsgs
  cases hn : job.next with
  | none => simp
  | some edges =>
      cases hc : compileEdges cf (job.id.getD "") edges with
      | ok r =>
          simp [hc, compileEdges_ok_no_errs cf (job.id.getD "") edges r hc]
      | error msgs =>
          simp [hc,
            compileEdges_error_errs cf (job.id.getD "") edges msgs hc]

/-- Folding list-append from an arbitrary start is the start followed by
the fold from nil. -/
theorem foldl_append_shift (f : Job → List String) (l : List Job)
    (init : List String) :
    l.foldl (fun a j => a ++ f j) init =
      init ++ l.foldl (fun a j => a ++ f j) [] := by
  induction l generalizing init with
  | nil => simp
  | cons j rest ih =>
      rw [List.foldl_cons, List.foldl_cons, ih (init ++ f j),
        ih (([] : List String) ++ f j)]
      simp

/-- The error component of the whole job loop: every job's failure
messages, in job order. -/
theorem foldl_compileJobStep_errs (cf : CompileFn) (alljobs : List Job)
    (jobs : List Job)
    (acc : Option String × List (String × CompiledJobNode) × List String) :
    (jobs.foldl (compileJobStep cf alljobs) acc).2.2 =
      acc.2.2 ++ jobs.foldl (fun a j => a ++ jobFailMsgs cf j) [] := by
  induction jobs generalizing acc with
  | nil => simp
  | cons job rest ih =>
      rw [List.foldl_cons, List.foldl_cons, ih, compileJobStep_errs,
        List.nil_append,
        foldl_append_shift (jobFailMsgs cf) rest (jobFailMsgs cf job),
        List.append_assoc]

/-- C6: every edge of every job is scanned even through failures; each
failure is collected with its `Failed to compile edge condition
<from>-><target> (<reason>)` message; the compiler then raises one error
whose message joins all collected messages with blank lines; and
`trapErrors` propagates a non-array throw immediately while appending an
array throw to the collection. -/
theorem c6_edge_errors_collected (cf : CompileFn) (plan : Plan) :
    (∀ (from_ : String) (m : List (String × EdgeVal)),
      m.filterMap (edgeFailMsg cf from_) ≠ [] →
      compileEdges cf from_ (.map m) =
        .error (m.filterMap (edgeFailMsg cf from_))) ∧
    (planFailMsgs cf (ensureIds plan.jobs) ≠ [] →
      compile cf plan =
        .error (String.intercalate "\n\n"
          (planFailMsgs cf (ensureIds plan.jobs)))) ∧
    (∀ (errs : List String) (e : String),
      trapErrors errs (.error (.other e)) = .error e) ∧
    (∀ (errs msgs : List String),
      trapErrors errs (.error (.arr msgs)) = .ok (errs ++ msgs)) := by
  refine ⟨?_, ?_, fun _ _ => rfl, fun _ _ => rfl⟩
  · intro from_ m h
    cases hc : compileEdges cf from_ (.map m) with
    | ok r =>
        have := compileEdges_ok_no_errs cf from_ (.map m) r hc
        simp only [edgeFailMsgs] at this
        exact absurd this h
    | error msgs =>
        have := compileEdges_error_errs cf from_ (.map m) msgs hc
        simp only [edgeFailMsgs] at this
        rw [this]
  · intro h
    have herrs := foldl_compileJobStep_errs cf (ensureIds plan.jobs)
      (ensureIds plan.jobs) (plan.start, [], [])
    simp only [List.nil_append] at herrs
    show compileJobs cf (ensureIds plan.jobs) plan.start = _
    simp only [compileJobs]
    rw [herrs]
    have h' : ¬((ensureIds plan.jobs).foldl
        (fun a j => a ++ jobFailMsgs cf j) [] = []) := by
      simpa [planFailMsgs] using h
    simp only [planFailMsgs] at h ⊢
    simp [h']

/-- C6 witness: a plan with three failing edge conditions across two
jobs under an always-throwing `compileFunction`; all three are scanned
and joined. -/
theorem c6_edge_errors_collected_witness :
    compile cfFailAll planErr =
      .error (String.intercalate "\n\n"
        (planFailMsgs cfFailAll (ensureIds planErr.jobs))) ∧
    planFailMsgs cfFailAll (ensureIds planErr.jobs) =
      ["Failed to compile edge condition a->b (nope)",
       "Failed to compile edge condition a->c (nope)",
       "Failed to compile edge condition b->c (nope)"] :=
  ⟨(c6_edge_errors_collected cfFailAll planErr).2.1 (by decide), rfl⟩

/-! ## C4 — `ATTEMPT_COMPLETE` invariant -/

/-- A just-set property is present. -/
theorem objGet_objSet (o : List (String × String)) (k v : String) :
    objGet (objSet o k v) k = some v := by
  induction o with
  | nil => simp [objSet, objGet]
  | cons p rest ih =>
      obtain ⟨k', v'⟩ := p
      by_cases h : k' = k
      · simp [objSet, objGet, h]
      · simp [objSet, objGet, h, ih]

/-- `getLast?` of a list with one element appended. -/
theorem getLast?_append_singleton {α : Type} (l : List α) (a : α) :
    (l ++ [a]).getLast? = some a := by
  rw [List.getLast?_append_cons]
  rfl

/-- Pushing a `RUN_START` does not change the last `RUN_COMPLETE`. -/
theorem lastRunCompleteId_append_start (msgs : List Msg)
    (m : RunStartMsg) :
    lastRunCompleteId (msgs ++ [.runStart m]) = lastRunCompleteId msgs := by
  simp [lastRunCompleteId, List.filterMap_append]

/-- Pushing a `RUN_COMPLETE` makes it the last one. -/
theorem lastRunCompleteId_append_complete (msgs : List Msg)
    (m : RunCompleteMsg) :
    lastRunCompleteId (msgs ++ [.runComplete m]) =
      some m.output_dataclip_id := by
  simp [lastRunCompleteId, List.filterMap_append,
    getLast?_append_singleton]

/-- Each job-phase handler preserves the attempt invariant. -/
theorem stepEv_inv (acc : AttemptState × List Msg) (ev : JobEv)
    (h : attemptInv acc.1 acc.2) :
    attemptInv (stepEv acc ev).1 (stepEv acc ev).2 := by
  obtain ⟨st, msgs⟩ := acc
  cases ev with
  | start jobId uuid =>
      simp only [stepEv, onJobStart, attemptInv] at h ⊢
      cases hr : st.result with
      | none =>
          rw [hr] at h
          exact ⟨h.1, by rw [lastRunCompleteId_append_start]; exact h.2⟩
      | some r =>
          rw [hr] at h
          obtain ⟨dc, h1, h2, h3⟩ := h
          exact ⟨dc, h1, h2,
            by rw [lastRunCompleteId_append_start]; exact h3⟩
  | complete dataclipId evState =>
      simp only [stepEv, onJobComplete, attemptInv]
      refine ⟨objSet (st.dataclips.getD []) dataclipId evState, rfl, ?_, ?_⟩
      · rw [objGet_objSet]; rfl
      · rw [lastRunCompleteId_append_complete]

/-- The invariant holds after any event sequence from any invariant
state. -/
theorem foldl_stepEv_inv (events : List JobEv)
    (acc : AttemptState × List Msg) (h : attemptInv acc.1 acc.2) :
    attemptInv (events.foldl stepEv acc).1 (events.foldl stepEv acc).2 := by
  induction events generalizing acc with
  | nil => exact h
  | cons ev rest ih => exact ih _ (stepEv_inv acc ev h)

/-- The invariant holds along every trace from the freshly created
attempt state. -/
theorem runTrace_inv (events : List JobEv) :
    attemptInv (runTrace events).1 (runTrace events).2 :=
  foldl_stepEv_inv events (initialAttemptState, []) ⟨rfl, rfl⟩

/-- C4: whenever `onWorkflowComplete` actually pushes
`ATTEMPT_COMPLETE` (the handler did not throw reading
`state.dataclips`), the entry `dataclips[result]` is defined in the
attempt state, and the pushed `final_dataclip_id` equals the
`output_dataclip_id` of the last `RUN_COMPLETE` emitted for the
attempt. -/
theorem c4_attempt_complete_invariant (events : List JobEv)
    (ac : AttemptCompleteMsg) (resolveVal : Option String)
    (h : onWorkflowComplete (runTrace events).1 = .ok (ac, resolveVal)) :
    clipDefined (runTrace events).1 = true ∧
    ac.final_dataclip_id = lastRunCompleteId (runTrace events).2 ∧
    (runTrace events).1.result.isSome = true := by
  have hinv := runTrace_inv events
  unfold onWorkflowComplete at h
  cases hd : (runTrace events).1.dataclips with
  | none => rw [hd] at h; exact absurd h (by simp)
  | some dc =>
      rw [hd] at h
      have hpair := Except.ok.inj h
      have hac : ac = ⟨(runTrace events).1.result⟩ :=
        (congrArg Prod.fst hpair).symm
      cases hr : (runTrace events).1.result with
      | none =>
          unfold attemptInv at hinv
          rw [hr] at hinv
          exact absurd hd (by rw [hinv.1]; simp)
      | some r =>
          unfold attemptInv at hinv
          rw [hr] at hinv
          obtain ⟨dc', h1, h2, h3⟩ := hinv
          have hdc : dc' = dc := by
            rw [hd] at h1
            exact (Option.some.inj h1).symm
          refine ⟨?_, ?_, by rfl⟩
          · simp only [clipDefined, hd, hr]
            rw [← hdc]
            exact h2
          · rw [hac]
            show (runTrace events).1.result = lastRunCompleteId (runTrace events).2
            rw [hr, h3]

/-- C4 witness: a trace with two completed jobs; the pushed
`final_dataclip_id` is the second dataclip id, which is defined in
`dataclips` and matches the last `RUN_COMPLETE`. -/
theorem c4_attempt_complete_invariant_witness :
    clipDefined (runTrace [.start "job-1" "u1", .complete "dc-1" "s1",
        .start "job-2" "u2", .complete "dc-2" "s2"]).1 = true ∧
    (AttemptCompleteMsg.mk (some "dc-2")).final_dataclip_id =
      lastRunCompleteId (runTrace [.start "job-1" "u1",
        .complete "dc-1" "s1", .start "job-2" "u2",
        .complete "dc-2" "s2"]).2 ∧
    (runTrace [.start "job-1" "u1", .complete "dc-1" "s1",
        .start "job-2" "u2", .complete "dc-2" "s2"]).1.result.isSome =
      true :=
  c4_attempt_complete_invariant
    [.start "job-1" "u1", .complete "dc-1" "s1", .start "job-2" "u2",
      .complete "dc-2" "s2"]
    ⟨some "dc-2"⟩ (some "s2") rfl

/-! ## C9 — configuration precedence and defaults -/

/-- C9: for every worker setting with both a CLI flag and an environment
variable, a defined CLI value wins, else a set (truthy, for the parsed
ones) environment value wins, else the built-in default applies:
backoff `1/10`, capacity 5, run memory 500, max run duration 300 s,
state props `configuration, response`; `WORKER_STATE_PROPS_TO_REMOVE` is
split on commas, the backoff string on `/`. -/
theorem c9_setarg_precedence (p : ParsedArgs) (e : Env) :
    ((∀ v, p.port = some v → (mkArgs p e).port = some v) ∧
      (∀ s, p.port = none → e.WORKER_PORT = some s → s ≠ "" →
        (mkArgs p e).port = some (parseIntJs s)) ∧
      (p.port = none → e.WORKER_PORT = none →
        (mkArgs p e).port = some (.num 2222))) ∧
    ((∀ v, p.lightning = some v → (mkArgs p e).lightning = some v) ∧
      (∀ s, p.lightning = none → e.WORKER_LIGHTNING_SERVICE_URL = some s →
        (mkArgs p e).lightning = some s) ∧
      (p.lightning = none → e.WORKER_LIGHTNING_SERVICE_URL = none →
        (mkArgs p e).lightning = some "ws://localhost:4000/worker")) ∧
    ((∀ v, p.repoDir = some v → (mkArgs p e).repoDir = some v) ∧
      (∀ s, p.repoDir = none → e.WORKER_REPO_DIR = some s →
        (mkArgs p e).repoDir = some s) ∧
      (p.repoDir = none → e.WORKER_REPO_DIR = none →
        (mkArgs p e).repoDir = none)) ∧
    ((∀ v, p.secret = some v → (mkArgs p e).secret = some v) ∧
      (∀ s, p.secret = none → e.WORKER_SECRET = some s →
        (mkArgs p e).secret = some s) ∧
      (p.secret = none → e.WORKER_SECRET = none →
        (mkArgs p e).secret = none)) ∧
    ((∀ v, p.lightningPublicKey = some v →
        (mkArgs p e).lightningPublicKey = some v) ∧
      (∀ s, p.lightningPublicKey = none →
        e.WORKER_LIGHTNING_PUBLIC_KEY = some s →
        (mkArgs p e).lightningPublicKey = some s) ∧
      (p.lightningPublicKey = none →
        e.WORKER_LIGHTNING_PUBLIC_KEY = none →
        (mkArgs p e).lightningPublicKey = none)) ∧
    ((∀ v, p.log = some v → (mkArgs p e).log = some v) ∧
      (∀ s, p.log = none → e.WORKER_LOG_LEVEL = some s →
        (mkArgs p e).log = some s) ∧
      (p.log = none → e.WORKER_LOG_LEVEL = none →
        (mkArgs p e).log = some "debug")) ∧
    ((∀ v, p.backoff = some v → (mkArgs p e).backoff = some v) ∧
      (∀ s, p.backoff = none → e.WORKER_BACKOFF = some s →
        (mkArgs p e).backoff = some s) ∧
      (p.backoff = none → e.WORKER_BACKOFF = none →
        (mkArgs p e).backoff = some "1/10")) ∧
    ((∀ v, p.capacity = some v → (mkArgs p e).capacity = some v) ∧
      (∀ s, p.capacity = none → e.WORKER_CAPACITY = some s → s ≠ "" →
        (mkArgs p e).capacity = some (parseIntJs s)) ∧
      (p.capacity = none → e.WORKER_CAPACITY = none →
        (mkArgs p e).capacity = some (.num 5))) ∧
    ((∀ v, p.runMemory = some v → (mkArgs p e).runMemory = some v) ∧
      (∀ s, p.runMemory = none → e.WORKER_MAX_RUN_MEMORY_MB = some s →
        s ≠ "" → (mkArgs p e).runMemory = some (parseIntJs s)) ∧
      (p.runMemory = none → e.WORKER_MAX_RUN_MEMORY_MB = none →
        (mkArgs p e).runMemory = some (.num 500))) ∧
    ((∀ v, p.maxRunDurationSeconds = some v →
        (mkArgs p e).maxRunDurationSeconds = some v) ∧
      (∀ s, p.maxRunDurationSeconds = none →
        e.WORKER_MAX_RUN_DURATION_SECONDS = some s → s ≠ "" →
        (mkArgs p e).maxRunDurationSeconds = some (parseIntJs s)) ∧
      (p.maxRunDurationSeconds = none →
        e.WORKER_MAX_RUN_DURATION_SECONDS = none →
        (mkArgs p e).maxRunDurationSeconds = some (.num 300))) ∧
    ((∀ v, p.statePropsToRemove = some v →
        (mkArgs p e).statePropsToRemove = some v) ∧
      (∀ s, p.statePropsToRemove = none →
        e.WORKER_STATE_PROPS_TO_REMOVE = some s → s ≠ "" →
        (mkArgs p e).statePropsToRemove = some (jsSplit s ',')) ∧
      (p.statePropsToRemove = none →
        e.WORKER_STATE_PROPS_TO_REMOVE = none →
        (mkArgs p e).statePropsToRemove =
          some ["configuration", "response"])) ∧
    backoffParts "1/10" = [.num 1000, .num 10000] := by
  refine ⟨⟨?_, ?_, ?_⟩, ⟨?_, ?_, ?_⟩, ⟨?_, ?_, ?_⟩, ⟨?_, ?_, ?_⟩,
    ⟨?_, ?_, ?_⟩, ⟨?_, ?_, ?_⟩, ⟨?_, ?_, ?_⟩, ⟨?_, ?_, ?_⟩,
    ⟨?_, ?_, ?_⟩, ⟨?_, ?_, ?_⟩, ⟨?_, ?_, ?_⟩, by decide⟩
  all_goals intros
  all_goals simp_all [mkArgs, setArg, envNum, envSplit]

/-- C9 witness: all CLI values absent; `WORKER_CAPACITY=7` beats the
default, `WORKER_MAX_RUN_MEMORY_MB` unset falls back to 500. -/
theorem c9_setarg_precedence_witness :
    (mkArgs {} { WORKER_CAPACITY := some "7" }).capacity =
      some (.num 7) ∧
    (mkArgs {} { WORKER_CAPACITY := some "7" }).runMemory =
      some (.num 500) := by
  constructor
  · exact (c9_setarg_precedence {} { WORKER_CAPACITY := some "7" }
      ).2.2.2.2.2.2.2.1.2.1 "7" rfl rfl (by decide)
  · exact (c9_setarg_precedence {} { WORKER_CAPACITY := some "7" }
      ).2.2.2.2.2.2.2.2.1.2.2 rfl rfl

/-! ## C10 — the compiler mutates the input plan's job ids -/

/-- The id-assignment pass, elementwise from any counter value: a truthy
id is kept; a falsy one becomes `job-<n>`, where `n` counts the falsy
ids up to and including this position. -/
theorem ensureIdsGo_get? (n : Nat) (jobs : List Job) (i : Nat) :
    (ensureIdsGo n jobs).get? i =
      (jobs.get? i).map (fun j =>
        if jsTruthy j.id then j
        else
          { j with
            id := some ("job-" ++ toString
              (n + (jobs.take i).countP (fun j' => !jsTruthy j'.id) + 1)) }) := by
  induction jobs generalizing n i with
  | nil => simp [ensureIdsGo]
  | cons job rest ih =>
      cases i with
      | zero =>
          by_cases h : jsTruthy job.id
          · simp [ensureIdsGo, h]
          · simp [ensureIdsGo, h]
      | succ i' =>
          simp only [ensureIdsGo]
          by_cases h : jsTruthy job.id
          · rw [if_pos h, List.get?_cons_succ, ih n i']
            simp [h]
          · rw [if_neg h, List.get?_cons_succ, ih (n + 1) i']
            have harith : ∀ c : Nat, n + 1 + c + 1 = n + (c + 1) + 1 := by
              intro c
              omega
            simp [h, harith]

/-- C10: compilation mutates its input — the plan the caller holds after
the call has every falsy-id job overwritten with `job-<n>` (n counting
the id-less jobs so far, starting at 1) while jobs that already had ids
keep them unchanged; the compiled output is built from this mutated job
list. -/
theorem c10_compile_assigns_ids (cf : CompileFn) (plan : Plan)
    (i : Nat) :
    (compileMut cf plan).1.jobs = ensureIds plan.jobs ∧
    (compileMut cf plan).1.start = plan.start ∧
    (compileMut cf plan).2 =
      compileJobs cf (ensureIds plan.jobs) plan.start ∧
    (ensureIds plan.jobs).get? i =
      (plan.jobs.get? i).map (fun j =>
        if jsTruthy j.id then j
        else
          { j with
            id := some ("job-" ++ toString
              ((plan.jobs.take i).countP (fun j' => !jsTruthy j'.id)
                + 1)) }) := by
  refine ⟨rfl, rfl, rfl, ?_⟩
  have h := ensureIdsGo_get? 0 plan.jobs i
  simpa [ensureIds] using h

end Kit
